import Mathlib

/-!
Shallow embedding of the segment key/value server (frame codec, command
layer, keyspace manager and eviction engine) together with proofs checking
the natural-language specification against the code.

Bytes are modelled as `Nat` (each < 256 in practice), byte buffers as
`List Nat`, Rust `String` as Lean `String`, `Instant` as a `Nat` tick and
`i64`/`usize` as `Int`/`Nat` with the overflow checks of the `atoi` crate
made explicit.
-/

/-- Model of `std::io::Cursor<&[u8]>`: an immutable byte buffer plus a
read position. -/
structure Cursor where
  data : List Nat
  pos : Nat
deriving Repr, DecidableEq

/-- Model of `frame::Frame` (src/frame.rs).  `String`/`Error` payloads are
Rust `String`s, `Blob` payloads raw bytes. -/
inductive Frame where
  | string (data : String)
  | blob (data : List Nat)
  | integer (n : Int)
  | null
  | array (items : List Frame)
  | error (data : String)
deriving Repr

/-- Model of `frame::ParseError` (src/frame.rs). -/
inductive ParseError where
  | IncompleteFrame
  | InvalidFrame
deriving Repr, DecidableEq

/-- True for an ASCII decimal digit byte. -/
def isDigitByte (b : Nat) : Bool := 48 ≤ b && b ≤ 57

/-- Numeric value of a list of ASCII digit bytes, most significant first. -/
def digitsVal (ds : List Nat) : Nat := ds.foldl (fun a d => a * 10 + (d - 48)) 0

/-- Model of `atoi::<usize>` from the `atoi` crate: consume leading ASCII
digits (at least one required), stop at the first non-digit, fail on
overflow of the 64-bit `usize`. -/
def atoiNat (bs : List Nat) : Option Nat :=
  let ds := bs.takeWhile isDigitByte
  if ds = [] then none
  else if digitsVal ds < 2 ^ 64 then some (digitsVal ds) else none

/-- Model of `atoi::<i64>`: like `atoiNat` but with an optional leading
sign and the `i64` range check. -/
def atoiInt (bs : List Nat) : Option Int :=
  match bs with
  | 45 :: rest =>
    let ds := rest.takeWhile isDigitByte
    if ds = [] then none
    else if digitsVal ds ≤ 2 ^ 63 then some (-(digitsVal ds : Int)) else none
  | 43 :: rest =>
    let ds := rest.takeWhile isDigitByte
    if ds = [] then none
    else if digitsVal ds < 2 ^ 63 then some (digitsVal ds : Int) else none
  | _ =>
    let ds := bs.takeWhile isDigitByte
    if ds = [] then none
    else if digitsVal ds < 2 ^ 63 then some (digitsVal ds : Int) else none

/-- True for a UTF-8 continuation byte (0x80–0xBF). -/
def isContByte (b : Nat) : Bool := 128 ≤ b && b ≤ 191

/-- UTF-8 decoder with the exact acceptance range of Rust's
`String::from_utf8` (rejecting overlong forms, surrogates and values above
U+10FFFF).  Returns the decoded characters or `none` on invalid input. -/
def decodeUtf8 : List Nat → Option (List Char)
  | [] => some []
  | b :: rest =>
    if b ≤ 127 then
      (decodeUtf8 rest).map (fun cs => Char.ofNat b :: cs)
    else if 194 ≤ b && b ≤ 223 then
      match rest with
      | b1 :: rest2 =>
        if isContByte b1 then
          (decodeUtf8 rest2).map (fun cs => Char.ofNat ((b - 192) * 64 + (b1 - 128)) :: cs)
        else none
      | [] => none
    else if b = 224 then
      match rest with
      | b1 :: b2 :: rest2 =>
        if (160 ≤ b1 && b1 ≤ 191) && isContByte b2 then
          (decodeUtf8 rest2).map
            (fun cs => Char.ofNat ((b - 224) * 4096 + (b1 - 128) * 64 + (b2 - 128)) :: cs)
        else none
      | _ => none
    else if (225 ≤ b && b ≤ 236) || b = 238 || b = 239 then
      match rest with
      | b1 :: b2 :: rest2 =>
        if isContByte b1 && isContByte b2 then
          (decodeUtf8 rest2).map
            (fun cs => Char.ofNat ((b - 224) * 4096 + (b1 - 128) * 64 + (b2 - 128)) :: cs)
        else none
      | _ => none
    else if b = 237 then
      match rest with
      | b1 :: b2 :: rest2 =>
        if (128 ≤ b1 && b1 ≤ 159) && isContByte b2 then
          (decodeUtf8 rest2).map
            (fun cs => Char.ofNat ((b - 224) * 4096 + (b1 - 128) * 64 + (b2 - 128)) :: cs)
        else none
      | _ => none
    else if b = 240 then
      match rest with
      | b1 :: b2 :: b3 :: rest2 =>
        if (144 ≤ b1 && b1 ≤ 191) && isContByte b2 && isContByte b3 then
          (decodeUtf8 rest2).map (fun cs =>
            Char.ofNat ((b - 240) * 262144 + (b1 - 128) * 4096 + (b2 - 128) * 64 + (b3 - 128)) :: cs)
        else none
      | _ => none
    else if 241 ≤ b && b ≤ 243 then
      match rest with
      | b1 :: b2 :: b3 :: rest2 =>
        if isContByte b1 && isContByte b2 && isContByte b3 then
          (decodeUtf8 rest2).map (fun cs =>
            Char.ofNat ((b - 240) * 262144 + (b1 - 128) * 4096 + (b2 - 128) * 64 + (b3 - 128)) :: cs)
        else none
      | _ => none
    else if b = 244 then
      match rest with
      | b1 :: b2 :: b3 :: rest2 =>
        if (128 ≤ b1 && b1 ≤ 143) && isContByte b2 && isContByte b3 then
          (decodeUtf8 rest2).map (fun cs =>
            Char.ofNat ((b - 240) * 262144 + (b1 - 128) * 4096 + (b2 - 128) * 64 + (b3 - 128)) :: cs)
        else none
      | _ => none
    else none

/-- Model of Rust's `String::from_utf8`. -/
def rustFromUtf8 (bs : List Nat) : Option String :=
  (decodeUtf8 bs).map (fun cs => String.mk cs)

/-- Standard UTF-8 encoding of one character. -/
def encodeChar (c : Char) : List Nat :=
  let n := c.toNat
  if n ≤ 127 then [n]
  else if n ≤ 2047 then [192 + n / 64, 128 + n % 64]
  else if n ≤ 65535 then [224 + n / 4096, 128 + n / 64 % 64, 128 + n % 64]
  else [240 + n / 262144, 128 + n / 4096 % 64, 128 + n / 64 % 64, 128 + n % 64]

/-- UTF-8 encoding of a string (the bytes Rust obtains via `as_bytes`). -/
def encodeUtf8 (s : String) : List Nat := s.data.flatMap encodeChar

/-- Helper for `get_line`: first index `j` with `i ≤ j < i + steps` such
that `data[j] = CR` and `data[j+1] = LF`, mirroring the scan loop
`for i in start..end` of src/frame.rs. -/
def findCRLFAux (data : List Nat) : Nat → Nat → Option Nat
  | _, 0 => none
  | i, steps + 1 =>
    if data.getD i 0 = 13 && data.getD (i + 1) 0 = 10 then some i
    else findCRLFAux data (i + 1) steps

/-- Model of `frame::get_line` (src/frame.rs:83-105).  Returns the
CRLF-terminated line starting at the cursor and the updated cursor; the
returned cursor equals the input on error. -/
def get_line (c : Cursor) : Except ParseError (List Nat) × Cursor :=
  if c.data.length ≤ c.pos then (Except.error ParseError.IncompleteFrame, c)
  else
    let start := c.pos
    let stop := c.data.length - 1
    match findCRLFAux c.data start (stop - start) with
    | some i => (Except.ok ((c.data.drop start).take (i - start)), { c with pos := i + 2 })
    | none => (Except.error ParseError.IncompleteFrame, c)

/-- Model of `frame::skip` (src/frame.rs:108-114). -/
def skip (n : Nat) (c : Cursor) : Except ParseError Unit × Cursor :=
  if c.data.length - c.pos < n then (Except.error ParseError.IncompleteFrame, c)
  else (Except.ok (), { c with pos := c.pos + n })

/-- True iff the frame is an `Array`. -/
def isArrayFrame : Frame → Bool
  | Frame.array _ => true
  | _ => false

/-- The child-collection loop of the `#` branch of `frame::parse`:
parse `n` children with the child parser `p`, rejecting children that are
themselves arrays ("Nested arrays are not supported"). -/
def parseManyAux (p : Cursor → Except ParseError Frame × Cursor) :
    Nat → Cursor → List Frame → Except ParseError (List Frame) × Cursor
  | 0, c, acc => (Except.ok acc.reverse, c)
  | n + 1, c, acc =>
    match p c with
    | (Except.ok f, c') =>
      if isArrayFrame f then (Except.error ParseError.InvalidFrame, c')
      else parseManyAux p n c' (f :: acc)
    | (Except.error e, c') => (Except.error e, c')

/-- One step of `frame::parse` (src/frame.rs:27-80), parameterised by the
parser `p` used for array children.  Byte tags: 36 `$`, 37 `%`, 33 `!`,
42 `*`, 35 `#`. -/
def parseBody (p : Cursor → Except ParseError Frame × Cursor) (c : Cursor) :
    Except ParseError Frame × Cursor :=
  match get_line c with
  | (Except.error e, c1) => (Except.error e, c1)
  | (Except.ok line, c1) =>
    match line with
    | [] => (Except.error ParseError.InvalidFrame, c1)
    | t :: frameData =>
      if t = 36 then
        match rustFromUtf8 frameData with
        | some s => (Except.ok (Frame.string s), c1)
        | none => (Except.error ParseError.InvalidFrame, c1)
      else if t = 37 then
        match atoiInt frameData with
        | some n => (Except.ok (Frame.integer n), c1)
        | none => (Except.error ParseError.InvalidFrame, c1)
      else if t = 33 then
        match rustFromUtf8 frameData with
        | some s => (Except.ok (Frame.error s), c1)
        | none => (Except.error ParseError.InvalidFrame, c1)
      else if t = 42 then
        if frameData = [45, 49] then
          match skip 2 c1 with
          | (Except.ok _, c2) => (Except.ok Frame.null, c2)
          | (Except.error e, c2) => (Except.error e, c2)
        else
          match atoiNat frameData with
          | none => (Except.error ParseError.InvalidFrame, c1)
          | some length =>
            if c1.data.length - c1.pos < length + 2 then
              (Except.error ParseError.IncompleteFrame, c1)
            else
              let payload := (c1.data.drop c1.pos).take length
              match skip (length + 2) c1 with
              | (Except.ok _, c2) => (Except.ok (Frame.blob payload), c2)
              | (Except.error e, c2) => (Except.error e, c2)
      else if t = 35 then
        match atoiNat frameData with
        | none => (Except.error ParseError.InvalidFrame, c1)
        | some length =>
          match parseManyAux p length c1 [] with
          | (Except.ok values, c2) => (Except.ok (Frame.array values), c2)
          | (Except.error e, c2) => (Except.error e, c2)
      else (Except.error ParseError.InvalidFrame, c1)

/-- Fuel-indexed model of `frame::parse`; each nesting level of the
recursion consumes one unit of fuel (defined through `Nat.rec` so that it
reduces definitionally on literal fuel). -/
def parseF (fuel : Nat) : Cursor → Except ParseError Frame × Cursor :=
  Nat.rec (fun c => (Except.error ParseError.IncompleteFrame, c))
    (fun _ ih => parseBody ih) fuel

/-- Model of `frame::parse` with enough fuel for any input: nesting depth
is bounded by the buffer length. -/
def parse (c : Cursor) : Except ParseError Frame × Cursor :=
  parseF (c.data.length + 1) c

/-- Model of `keyspace::MAX_MEMORY_SAMPLE_SIZE` (src/keyspace.rs:14). -/
def MAX_MEMORY_SAMPLE_SIZE : Nat := 3

/-- Model of `keyspace::Value` (src/keyspace.rs:37-41); `last_accessed`
is a tick of the monotonic clock. -/
structure Value where
  data : List Nat
  last_accessed : Nat
deriving Repr, DecidableEq

/-- Model of `keyspace::Evictor` (src/keyspace.rs:43-48). -/
inductive Evictor where
  | Random
  | Noop
  | Lru
deriving Repr, DecidableEq

/-- Model of `keyspace::Db` (src/keyspace.rs:27-35).  The store is the
hash map in its (arbitrary) iteration order; the notifier is omitted
(pure model). -/
structure Db where
  store : List (String × Value)
  shutdown : Bool
  evictor : Evictor
  server_max_memory : Nat
  max_memory_sample_size : Nat
deriving Repr, DecidableEq

/-- Model of `keyspace::Db::new` (src/keyspace.rs:131-140). -/
def Db.new (evictor : Evictor) (server_max_memory : Nat) (max_memory_sample_size : Nat) : Db :=
  { store := [], shutdown := false, evictor := evictor,
    server_max_memory := server_max_memory,
    max_memory_sample_size := max_memory_sample_size }

/-- Whether the store holds the key (`HashMap::contains_key`). -/
def containsKey (s : List (String × Value)) (k : String) : Bool :=
  s.any (fun e => e.1 = k)

/-- `HashMap::insert`: replace in place if present, else add the entry. -/
def storeSet (s : List (String × Value)) (k : String) (v : Value) : List (String × Value) :=
  if containsKey s k then s.map (fun e => if e.1 = k then (k, v) else e)
  else s ++ [(k, v)]

/-- `HashMap::get` on the store. -/
def storeGet (s : List (String × Value)) (k : String) : Option Value :=
  (s.find? (fun e => e.1 = k)).map (fun e => e.2)

/-- `HashMap::remove`: drop the (unique) entry with the key. -/
def storeDel (s : List (String × Value)) (k : String) : List (String × Value) :=
  s.eraseP (fun e => e.1 == k)

/-- Refresh `last_accessed` of the entry with key `k` to `now`
(the `get_mut` update in `Keyspace::get`, src/keyspace.rs:92-98). -/
def storeRefresh (s : List (String × Value)) (k : String) (now : Nat) : List (String × Value) :=
  s.map (fun e => if e.1 = k then (e.1, { e.2 with last_accessed := now }) else e)

/-- Model of `Keyspace::set` (src/keyspace.rs:88-91): insert and return 1. -/
def keyspace_set (db : Db) (key : String) (value : List Nat) (now : Nat) : Nat × Db :=
  (1, { db with store := storeSet db.store key { data := value, last_accessed := now } })

/-- Model of `Keyspace::get` (src/keyspace.rs:92-98): refresh
`last_accessed` and return the data. -/
def keyspace_get (db : Db) (key : String) (now : Nat) : Option (List Nat) × Db :=
  match storeGet db.store key with
  | some v => (some v.data, { db with store := storeRefresh db.store key now })
  | none => (none, db)

/-- Model of `Keyspace::del` (src/keyspace.rs:100-108): remove and report
whether an entry was removed. -/
def keyspace_del (db : Db) (key : String) : Nat × Db :=
  let value := storeGet db.store key
  let db' := { db with store := storeDel db.store key }
  (if value.isSome then 1 else 0, db')

/-- Model of `Keyspace::start_evictor` (src/keyspace.rs:110-118): returns
whether a background evictor task is spawned. -/
def start_evictor (db : Db) : Bool :=
  if db.evictor = Evictor.Noop then false else true

/-- Model of `keyspace::get_rss` (src/keyspace.rs:205-212).
`observation` is the result of the platform call (`none` when it fails,
in which case `map_or` yields 0); on Linux a positive value is divided by
1024 (`rss /= 1024`). -/
def get_rss (observation : Option Nat) (targetOsLinux : Bool) : Nat :=
  let rss := match observation with
    | some r => r
    | none => 0
  if 0 < rss && targetOsLinux then rss / 1024 else rss

/-- The sampling loop of `keyspace::sample_and_evict`
(src/keyspace.rs:187-202): walk the store with a running sample counter,
candidate key and tracked access time, and return the candidate chosen
when the `samples + 1 == min(sample_size, len)` break fires (`none` when
the loop ends without the break firing, or with no candidate).  The
Random evictor's `rand::thread_rng().gen::<f32>() < 0.5` draw is modelled
by the coin stream `coins`, indexed by the iteration counter. -/
def evictLoop (ev : Evictor) (stop : Nat) (coins : Nat → Bool) :
    List (String × Value) → Nat → Option String → Nat → Option String
  | [], _, _, _ => none
  | (k, v) :: rest, samples, cand, accessTime =>
    let st : Option String × Nat :=
      if ev = Evictor.Random then
        (if coins samples then some k else cand, accessTime)
      else if v.last_accessed ≤ accessTime then (some k, v.last_accessed)
      else (cand, accessTime)
    if samples + 1 = stop then st.1
    else evictLoop ev stop coins rest (samples + 1) st.1 st.2

/-- Model of `keyspace::sample_and_evict` (src/keyspace.rs:171-203); the
RSS observation, coin stream and current instant are explicit inputs.
Returns the store after the pass. -/
def sample_and_evict (db : Db) (rss : Nat) (coins : Nat → Bool) (now : Nat) :
    List (String × Value) :=
  if db.shutdown then db.store
  else if rss < db.server_max_memory then db.store
  else
    match evictLoop db.evictor (min db.max_memory_sample_size db.store.length)
        coins db.store 0 none now with
    | some key => storeDel db.store key
    | none => db.store

/-- Model of `keyspace::KeyspaceManager` (src/keyspace.rs:16-20); the
DashMap is an insertion-ordered association list. -/
structure KeyspaceManager where
  server_max_memory : Nat
  keyspaces : List (String × Db)
deriving Repr, DecidableEq

/-- `DashMap::contains_key` over the manager. -/
def containsName (mgr : KeyspaceManager) (name : String) : Bool :=
  mgr.keyspaces.any (fun e => e.1 = name)

/-- The exact-name lookup performed by
`KeyspaceManager::with_keyspace` (src/keyspace.rs:58-68). -/
def lookupKeyspace (mgr : KeyspaceManager) (name : String) : Option Db :=
  (mgr.keyspaces.find? (fun e => e.1 = name)).map (fun e => e.2)

/-- Replace the keyspace bound to `name` (the write-back of a
`get_mut` mutation). -/
def updateKeyspace (mgr : KeyspaceManager) (name : String) (db : Db) : KeyspaceManager :=
  { mgr with keyspaces := mgr.keyspaces.map (fun e => if e.1 = name then (name, db) else e) }

/-- Model of `KeyspaceManager::create` (src/keyspace.rs:70-78): return 0
if the name exists, otherwise insert a fresh keyspace (whose evictor task
is started per `start_evictor`) and return 1. -/
def managerCreate (mgr : KeyspaceManager) (name : String) (evictor : Evictor)
    (max_memory_sample_size : Nat) : Nat × KeyspaceManager :=
  if containsName mgr name then (0, mgr)
  else
    (1, { mgr with keyspaces :=
      mgr.keyspaces ++ [(name, Db.new evictor mgr.server_max_memory max_memory_sample_size)] })

/-- The error message `with_keyspace` produces for a missing keyspace. -/
def missingKeyspaceMsg (name : String) : String :=
  "ERR keyspace '" ++ name ++ "' does not exist"

/-- ASCII uppercase of one character (the action of Rust's
`str::to_uppercase` on the ASCII range, which is all the command and
option vocabulary exercises). -/
def upChar (c : Char) : Char :=
  if 97 ≤ c.toNat && c.toNat ≤ 122 then Char.ofNat (c.toNat - 32) else c

/-- ASCII uppercase of a string (model of `str::to_uppercase`). -/
def asciiUpper (s : String) : String := String.mk (s.data.map upChar)

/-- Model of Rust's `str::parse::<usize>`: whole-string parse, optional
leading `+`, at least one digit, nothing else, 64-bit overflow check. -/
def parseUsize (s : String) : Option Nat :=
  let cs := match s.data with
    | '+' :: rest => rest
    | cs => cs
  if cs = [] then none
  else if cs.all (fun c => 48 ≤ c.toNat && c.toNat ≤ 57) then
    let v := cs.foldl (fun a c => a * 10 + (c.toNat - 48)) 0
    if v < 2 ^ 64 then some v else none
  else none

/-- Model of `Parser::next_string` applied to one frame
(src/command.rs:62-73): strings pass through, blobs are decoded as UTF-8
(its failure is the raw `Utf8Error`, not an `ERRPARSE` message), anything
else is an `ERRPARSE` failure. -/
def frameToString : Frame → Except String String
  | Frame.string data => Except.ok data
  | Frame.blob data =>
    match rustFromUtf8 data with
    | some s => Except.ok s
    | none => Except.error "invalid utf-8 sequence"
  | _ => Except.error "ERRPARSE Failed to parse frame as string"

/-- Model of `Parser::next_blob` applied to one frame
(src/command.rs:75-84). -/
def frameToBlob : Frame → Except String (List Nat)
  | Frame.string data => Except.ok (encodeUtf8 data)
  | Frame.blob data => Except.ok data
  | _ => Except.error "ERRPARSE Failed to parse frame as blob"

/-- Model of `command::Get` (src/command.rs:22-26). -/
structure GetCmd where
  key : String
  keyspace : String
deriving Repr, DecidableEq

/-- Model of `command::Set` (src/command.rs:28-33). -/
structure SetCmd where
  key : String
  value : List Nat
  keyspace : String
deriving Repr, DecidableEq

/-- Model of `command::Del` (src/command.rs:35-39). -/
structure DelCmd where
  key : String
  keyspace : String
deriving Repr, DecidableEq

/-- Model of `command::Create` (src/command.rs:41-46). -/
structure CreateCmd where
  keyspace : String
  evictor : Evictor
  max_memory_sample_size : Option Nat
deriving Repr, DecidableEq

/-- Model of `command::Command` (src/command.rs:14-20). -/
inductive Command where
  | get (cmd : GetCmd)
  | set (cmd : SetCmd)
  | del (cmd : DelCmd)
  | create (cmd : CreateCmd)
deriving Repr, DecidableEq

/-- Model of `Get::parse` (src/command.rs:108-123) over the frames
remaining after the command name. -/
def get_parse (args : List Frame) : Except String GetCmd :=
  match args with
  | [] => Except.error "ERRPARSE Invalid command, missing argument 'KEYSPACE'"
  | a :: rest =>
    match frameToString a with
    | Except.error e => Except.error e
    | Except.ok keyspace =>
      match rest with
      | [] => Except.error "ERRPARSE Invalid command, missing argument 'KEY'"
      | b :: rest2 =>
        match frameToString b with
        | Except.error e => Except.error e
        | Except.ok key =>
          match rest2 with
          | [] => Except.ok { key := key, keyspace := keyspace }
          | _ => Except.error "ERRPARSE Invalid command, wrong number of arguments for 'GET'"

/-- Model of `Del::parse` (src/command.rs:148-163). -/
def del_parse (args : List Frame) : Except String DelCmd :=
  match args with
  | [] => Except.error "ERRPARSE Invalid command, missing argument 'KEYSPACE'"
  | a :: rest =>
    match frameToString a with
    | Except.error e => Except.error e
    | Except.ok keyspace =>
      match rest with
      | [] => Except.error "ERRPARSE Invalid command, missing argument 'KEY'"
      | b :: rest2 =>
        match frameToString b with
        | Except.error e => Except.error e
        | Except.ok key =>
          match rest2 with
          | [] => Except.ok { key := key, keyspace := keyspace }
          | _ => Except.error "ERRPARSE Invalid command, wrong number of arguments for 'DEL'"

/-- Model of `Set::parse` (src/command.rs:182-206). -/
def set_parse (args : List Frame) : Except String SetCmd :=
  match args with
  | [] => Except.error "ERRPARSE Invalid command, missing argument 'KEYSPACE'"
  | a :: rest =>
    match frameToString a with
    | Except.error e => Except.error e
    | Except.ok keyspace =>
      match rest with
      | [] => Except.error "ERRPARSE Invalid command, missing argument 'KEY'"
      | b :: rest2 =>
        match frameToString b with
        | Except.error e => Except.error e
        | Except.ok key =>
          match rest2 with
          | [] => Except.error "ERRPARSE Invalid command, missing argument 'VALUE'"
          | v :: rest3 =>
            match frameToBlob v with
            | Except.error e => Except.error e
            | Except.ok value =>
              match rest3 with
              | [] => Except.ok { key := key, value := value, keyspace := keyspace }
              | _ => Except.error "ERRPARSE Invalid command, wrong number of arguments for 'SET'"

/-- The token-collection loop of `Create::parse`
(src/command.rs:235-244): gather remaining frames as strings, failing
once more than 4 option tokens have been collected and another frame is
still pending. -/
def collectTokens : List Frame → List String → Except String (List String)
  | [], tokens => Except.ok tokens
  | f :: rest, tokens =>
    if 4 < tokens.length then
      Except.error "ERRPARSE Invalid command, wrong number of arguments for 'CREATE'"
    else
      match frameToString f with
      | Except.ok t => collectTokens rest (tokens ++ [t])
      | Except.error e => Except.error e

/-- The option-pair loop of `Create::parse` (src/command.rs:256-283):
process `EV`/`SS` pairs (names and values upper-cased) two tokens at a
time, mutating the command record. -/
def applyOpts : CreateCmd → List String → Except String CreateCmd
  | cmd, arg :: val :: rest =>
    let argU := asciiUpper arg
    let valU := asciiUpper val
    if argU = "EV" then
      if valU = "RANDOM" then applyOpts { cmd with evictor := Evictor.Random } rest
      else if valU = "NOOP" then applyOpts { cmd with evictor := Evictor.Noop } rest
      else if valU = "LRU" then applyOpts { cmd with evictor := Evictor.Lru } rest
      else Except.error ("ERRPARSE Invalid value '" ++ valU ++ "' for 'EVICTOR'")
    else if argU = "SS" then
      match parseUsize valU with
      | some v => applyOpts { cmd with max_memory_sample_size := some v } rest
      | none => Except.error ("ERRPARSE Invalid value '" ++ valU ++ "' for 'SAMPLE SIZE'")
    else Except.error ("ERRPARSE Invalid argument '" ++ argU ++ "'")
  | cmd, _ => Except.ok cmd

/-- Model of `Create::parse` (src/command.rs:226-298). -/
def create_parse (args : List Frame) : Except String CreateCmd :=
  match args with
  | [] => Except.error "ERRPARSE Invalid command, missing argument 'KEYSPACE'"
  | ksFrame :: rest =>
    match frameToString ksFrame with
    | Except.error e => Except.error e
    | Except.ok keyspace =>
      let cmd : CreateCmd :=
        { keyspace := keyspace, evictor := Evictor.Noop, max_memory_sample_size := none }
      match collectTokens rest [] with
      | Except.error e => Except.error e
      | Except.ok tokens =>
        if tokens = [] then Except.ok cmd
        else if tokens.length % 2 ≠ 0 then
          Except.error "ERRPARSE Invalid command, wrong number of arguments for 'CREATE'"
        else
          match applyOpts cmd tokens with
          | Except.error e => Except.error e
          | Except.ok cmd' =>
            if cmd'.evictor = Evictor.Noop ∧ cmd'.max_memory_sample_size.isSome then
              Except.error "ERRPARSE Invalid command, 'SAMPLE SIZE' not applicable for 'NOOP' evictor"
            else if cmd'.evictor ≠ Evictor.Noop ∧ cmd'.max_memory_sample_size = none then
              Except.ok { cmd' with max_memory_sample_size := some MAX_MEMORY_SAMPLE_SIZE }
            else Except.ok cmd'

/-- Model of `command::new` (src/command.rs:313-328): dispatch on the
upper-cased first string of the array frame. -/
def cmdNew (f : Frame) : Except String Command :=
  match f with
  | Frame.array values =>
    match values with
    | [] => Except.error "ERRPARSE No command was provided to be executed"
    | cmdFrame :: rest =>
      match frameToString cmdFrame with
      | Except.error e => Except.error e
      | Except.ok c =>
        let cu := asciiUpper c
        if cu = "SET" then (set_parse rest).map Command.set
        else if cu = "GET" then (get_parse rest).map Command.get
        else if cu = "DEL" then (del_parse rest).map Command.del
        else if cu = "CREATE" then (create_parse rest).map Command.create
        else Except.error ("ERRPARSE Unknown command '" ++ cu ++ "'")
  | _ => Except.error "ERRPARSE Failed to parse frame as array"

/-- Model of `Set::exec` (src/command.rs:208-223): the response frame
written to the connection and the manager afterwards. -/
def set_exec (mgr : KeyspaceManager) (cmd : SetCmd) (now : Nat) : Frame × KeyspaceManager :=
  match lookupKeyspace mgr cmd.keyspace with
  | some db =>
    let r := keyspace_set db cmd.key cmd.value now
    (Frame.integer (Int.ofNat r.1), updateKeyspace mgr cmd.keyspace r.2)
  | none => (Frame.error ("ERREXEC " ++ missingKeyspaceMsg cmd.keyspace), mgr)

/-- Model of `Get::exec` (src/command.rs:125-144). -/
def get_exec (mgr : KeyspaceManager) (cmd : GetCmd) (now : Nat) : Frame × KeyspaceManager :=
  match lookupKeyspace mgr cmd.keyspace with
  | some db =>
    let r := keyspace_get db cmd.key now
    (match r.1 with
     | some data => Frame.blob data
     | none => Frame.null, updateKeyspace mgr cmd.keyspace r.2)
  | none => (Frame.error ("ERREXEC " ++ missingKeyspaceMsg cmd.keyspace), mgr)

/-- Model of `Del::exec` (src/command.rs:165-178). -/
def del_exec (mgr : KeyspaceManager) (cmd : DelCmd) : Frame × KeyspaceManager :=
  match lookupKeyspace mgr cmd.keyspace with
  | some db =>
    let r := keyspace_del db cmd.key
    (Frame.integer (Int.ofNat r.1), updateKeyspace mgr cmd.keyspace r.2)
  | none => (Frame.error ("ERREXEC " ++ missingKeyspaceMsg cmd.keyspace), mgr)

/-- Model of `Create::exec` (src/command.rs:300-310): a missing sample
size is passed to the manager as 0. -/
def create_exec (mgr : KeyspaceManager) (cmd : CreateCmd) : Frame × KeyspaceManager :=
  let max_memory_sample_size := cmd.max_memory_sample_size.getD 0
  let r := managerCreate mgr cmd.keyspace cmd.evictor max_memory_sample_size
  (Frame.integer (Int.ofNat r.1), r.2)

/-- Model of `command::exec` (src/command.rs:330-337). -/
def execCommand (mgr : KeyspaceManager) (cmd : Command) (now : Nat) : Frame × KeyspaceManager :=
  match cmd with
  | Command.create c => create_exec mgr c
  | Command.set c => set_exec mgr c now
  | Command.del c => del_exec mgr c
  | Command.get c => get_exec mgr c now

/-- One iteration of the per-connection loop after a frame has been read
(src/server.rs:144-151): parse the frame into a command (an error is
written back in-band and the manager untouched) and execute it. -/
def handleFrame (mgr : KeyspaceManager) (f : Frame) (now : Nat) : Frame × KeyspaceManager :=
  match cmdNew f with
  | Except.error e => (Frame.error e, mgr)
  | Except.ok cmd => execCommand mgr cmd now

/-- Model of `Connection::write` (src/connection.rs:80-117): serialize a
single non-array frame; the `Array` case is the `unreachable!()` branch,
modelled as `none` (a panic). -/
def write : Frame → Option (List Nat)
  | Frame.string data => some ([36] ++ encodeUtf8 data ++ [13, 10])
  | Frame.integer data => some ([37] ++ encodeUtf8 (toString data) ++ [13, 10])
  | Frame.error data => some ([33] ++ encodeUtf8 data ++ [13, 10])
  | Frame.null => some [42, 45, 49, 13, 10, 13, 10]
  | Frame.blob data => some ([42] ++ encodeUtf8 (toString data.length) ++ [13, 10] ++ data ++ [13, 10])
  | Frame.array _ => none

/-- The child loop of `write_frame`: serialize each child in order via
`write`, propagating its failure. -/
def writeChildren : List Frame → Option (List Nat)
  | [] => some []
  | f :: rest =>
    match write f with
    | some w => (writeChildren rest).map (fun ws => w ++ ws)
    | none => none

/-- Model of `Connection::write_frame` (src/connection.rs:61-78): arrays
are written as a header followed by each child via `write`; other frames
go through `write` directly. -/
def write_frame : Frame → Option (List Nat)
  | Frame.array values =>
    (writeChildren values).map
      (fun ws => [35] ++ encodeUtf8 (toString values.length) ++ [13, 10] ++ ws)
  | f => write f

/-- True iff the frame is an array one of whose items is itself an array
(the shape the serializer cannot write). -/
def hasNestedArray : Frame → Bool
  | Frame.array items => items.any isArrayFrame
  | _ => false

/-- The keys of a store, in iteration order. -/
def keysOf (db : Db) : List String := db.store.map Prod.fst

/-- The events that can touch one keyspace's store: the three commands,
plus a pass of the background evictor. -/
inductive KeyspaceEvent where
  | setE (key : String) (value : List Nat) (now : Nat)
  | getE (key : String) (now : Nat)
  | delE (key : String)
  | evictPass (rss : Nat) (coins : Nat → Bool) (now : Nat)

/-- Small-step semantics of one keyspace: an eviction pass is only
possible when `start_evictor` actually spawned a background task
(src/keyspace.rs:110-118), hence `none` for a Noop keyspace. -/
def keyspaceStep (db : Db) : KeyspaceEvent → Option Db
  | KeyspaceEvent.setE k v t => some (keyspace_set db k v t).2
  | KeyspaceEvent.getE k t => some (keyspace_get db k t).2
  | KeyspaceEvent.delE k => some (keyspace_del db k).2
  | KeyspaceEvent.evictPass rss coins t =>
    if start_evictor db then some { db with store := sample_and_evict db rss coins t }
    else none

/-- The pure fold underlying the LRU branch of the sampling loop:
track the candidate and the minimum `last_accessed` seen so far. -/
def lruFold : Option String × Nat → List (String × Value) → Option String × Nat
  | acc, [] => acc
  | (cand, t), (k, v) :: rest =>
    if v.last_accessed ≤ t then lruFold (some k, v.last_accessed) rest
    else lruFold (cand, t) rest

theorem parseF_succ (fuel : Nat) (c : Cursor) :
    parseF (fuel + 1) c = parseBody (parseF fuel) c := rfl

theorem get_line_error_cursor {c c' : Cursor} {e : ParseError}
    (h : get_line c = (Except.error e, c')) : c' = c := by
  unfold get_line at h
  split at h
  · exact (congrArg Prod.snd h).symm
  · dsimp only at h
    split at h
    · simp at h
    · exact (congrArg Prod.snd h).symm

/-- C1: the claim that `parse` never moves the cursor when it returns
`IncompleteFrame` is false: on the input `*10\r\nseg` (a Blob header
declaring length 10 followed by only 3 bytes) the parser returns
`IncompleteFrame` with the cursor moved from position 0 to position 5,
just past the header line. -/
theorem C1_counterexample :
    (parse { data := [42, 49, 48, 13, 10, 115, 101, 103], pos := 0 }).1 =
      Except.error ParseError.IncompleteFrame ∧
    (parse { data := [42, 49, 48, 13, 10, 115, 101, 103], pos := 0 }).2.pos = 5 ∧
    ¬ (parse { data := [42, 49, 48, 13, 10, 115, 101, 103], pos := 0 }).2.pos =
      ({ data := [42, 49, 48, 13, 10, 115, 101, 103], pos := 0 } : Cursor).pos :=
  ⟨rfl, rfl, by decide⟩

/-- C1 (amended): when the header-line read itself fails, `parse` returns
`IncompleteFrame` with the cursor unchanged; but for a Blob header
declaring length `n` with fewer than `n + 2` bytes remaining after the
header, `parse` returns `IncompleteFrame` with the cursor advanced just
past the header line (the cursor `c1` produced by `get_line`), not at its
original position. -/
theorem C1_incomplete_cursor :
    (∀ (c c' : Cursor) (e : ParseError), get_line c = (Except.error e, c') →
      parse c = (Except.error e, c)) ∧
    (∀ (fuel : Nat) (c c1 : Cursor) (ds : List Nat) (n : Nat),
      get_line c = (Except.ok (42 :: ds), c1) → atoiNat ds = some n →
      c1.data.length - c1.pos < n + 2 →
      parseF (fuel + 1) c = (Except.error ParseError.IncompleteFrame, c1)) := by
  constructor
  · intro c c' e h
    have hc : c' = c := get_line_error_cursor h
    subst hc
    unfold parse
    rw [parseF_succ, parseBody, h]
  · intro fuel c c1 ds n hline hnum hlt
    rw [parseF_succ, parseBody, hline]
    have hds : ¬ ds = [45, 49] := by
      intro hc
      subst hc
      simp [atoiNat, isDigitByte] at hnum
    simp only [if_neg (by decide : ¬ (42 : Nat) = 36), if_neg (by decide : ¬ (42 : Nat) = 37),
      if_neg (by decide : ¬ (42 : Nat) = 33), if_pos rfl, if_neg hds, hnum]
    simp [hlt]

/-- Witness for C1: the concrete Blob header of the counterexample
instantiates the amended theorem. -/
theorem C1_witness :
    parse { data := [42, 49, 48, 13, 10, 115, 101, 103], pos := 0 } =
      (Except.error ParseError.IncompleteFrame,
       { data := [42, 49, 48, 13, 10, 115, 101, 103], pos := 5 }) :=
  C1_incomplete_cursor.2 8 _ _ [49, 48] 10 rfl rfl (by decide)

/-- C2: the claim is false on two points.  `get_rss` divides (not
multiplies) the Linux value by 1024: an observation of 2048 yields 2, not
2048 * 1024.  And a pass under a failed observation (RSS 0) can still
evict when the configured cap is 0: with `server_max_memory = 0` the LRU
pass removes the only entry of the store. -/
theorem C2_counterexample :
    get_rss (some 2048) true = 2 ∧
    ¬ get_rss (some 2048) true = 2048 * 1024 ∧
    get_rss none true = 0 ∧
    sample_and_evict
      { store := [("a", { data := [], last_accessed := 0 })], shutdown := false,
        evictor := Evictor.Lru, server_max_memory := 0, max_memory_sample_size := 3 }
      (get_rss none true) (fun _ => false) 5 = [] :=
  ⟨rfl, by decide, rfl, rfl⟩

/-- C2 (amended): `get_rss` normalizes a positive Linux observation by
dividing by 1024; a failed observation reports RSS 0; and under a failed
observation an eviction pass removes nothing from any store whose
configured memory cap is positive. -/
theorem C2_rss_observation :
    ∀ (r : Nat) (lin : Bool) (db : Db) (coins : Nat → Bool) (now : Nat),
      (0 < r → get_rss (some r) true = r / 1024) ∧
      get_rss none lin = 0 ∧
      (0 < db.server_max_memory →
        sample_and_evict db (get_rss none lin) coins now = db.store) := by
  intro r lin db coins now
  refine ⟨fun hr => ?_, ?_, fun hcap => ?_⟩
  · simp [get_rss, hr]
  · simp [get_rss]
  · simp [sample_and_evict, get_rss, hcap]

/-- Witness for C2 at concrete inputs. -/
theorem C2_witness :
    get_rss (some 2048) true = 2048 / 1024 ∧
    sample_and_evict
      { store := [("a", { data := [], last_accessed := 0 })], shutdown := false,
        evictor := Evictor.Lru, server_max_memory := 1, max_memory_sample_size := 3 }
      (get_rss none true) (fun _ => false) 5 =
      [("a", { data := [], last_accessed := 0 })] :=
  ⟨(C2_rss_observation 2048 true
      { store := [], shutdown := false, evictor := Evictor.Noop,
        server_max_memory := 0, max_memory_sample_size := 0 } (fun _ => false) 0).1
      (by decide),
   (C2_rss_observation 2048 true
      { store := [("a", { data := [], last_accessed := 0 })], shutdown := false,
        evictor := Evictor.Lru, server_max_memory := 1, max_memory_sample_size := 3 }
      (fun _ => false) 5).2.2 (by decide)⟩

/-- C3: the claim's error text is wrong.  `with_keyspace` fails with
`ERR keyspace 'ghost' does not exist` and `Set::exec` prepends
`ERREXEC `, so the frame written for `SET ghost k v` carries
`ERREXEC ERR keyspace 'ghost' does not exist`, not
`ERREXEC keyspace 'ghost' does not exist`; the manager is untouched. -/
theorem C3_counterexample :
    (set_exec { server_max_memory := 1024, keyspaces := [] }
        { key := "k", value := [118], keyspace := "ghost" } 0).1 =
      Frame.error "ERREXEC ERR keyspace 'ghost' does not exist" ∧
    ¬ ("ERREXEC ERR keyspace 'ghost' does not exist" =
       "ERREXEC keyspace 'ghost' does not exist") ∧
    (set_exec { server_max_memory := 1024, keyspaces := [] }
        { key := "k", value := [118], keyspace := "ghost" } 0).2 =
      { server_max_memory := 1024, keyspaces := [] } :=
  ⟨rfl, by decide, rfl⟩

/-- C3 (amended): executing SET, GET or DEL against a keyspace name the
manager does not hold writes the in-band Error frame
`ERREXEC ERR keyspace '<name>' does not exist` and leaves the manager —
hence every keyspace's store — unchanged. -/
theorem C3_missing_keyspace :
    ∀ (mgr : KeyspaceManager) (ks key : String) (value : List Nat) (now : Nat),
      lookupKeyspace mgr ks = none →
      set_exec mgr { key := key, value := value, keyspace := ks } now =
        (Frame.error ("ERREXEC ERR keyspace '" ++ ks ++ "' does not exist"), mgr) ∧
      get_exec mgr { key := key, keyspace := ks } now =
        (Frame.error ("ERREXEC ERR keyspace '" ++ ks ++ "' does not exist"), mgr) ∧
      del_exec mgr { key := key, keyspace := ks } =
        (Frame.error ("ERREXEC ERR keyspace '" ++ ks ++ "' does not exist"), mgr) := by
  intro mgr ks key value now h
  have hmsg : "ERREXEC " ++ missingKeyspaceMsg ks =
      "ERREXEC ERR keyspace '" ++ ks ++ "' does not exist" := by
    simp [missingKeyspaceMsg, ← String.append_assoc]
  refine ⟨?_, ?_, ?_⟩ <;> simp [set_exec, get_exec, del_exec, h, hmsg]

/-- Witness for C3: the `ghost` keyspace of the spec's own scenario. -/
theorem C3_witness :
    get_exec { server_max_memory := 1024, keyspaces := [] }
        { key := "k", keyspace := "ghost" } 3 =
      (Frame.error ("ERREXEC ERR keyspace '" ++ "ghost" ++ "' does not exist"),
       { server_max_memory := 1024, keyspaces := [] }) :=
  (C3_missing_keyspace { server_max_memory := 1024, keyspaces := [] }
    "ghost" "k" [] 3 rfl).2.1

/-- C7: CREATE is idempotent on the keyspace name: a CREATE of an
existing name returns 0 and leaves the manager — the bound keyspace's
evictor, sample size and store included — unchanged; and after a first
CREATE (returning 1) a second CREATE of the same name with any evictor
and sample size returns 0 and changes nothing. -/
theorem C7_create_idempotent :
    ∀ (mgr : KeyspaceManager) (name : String) (ev1 ev2 : Evictor) (ss1 ss2 : Nat),
      (containsName mgr name = true → managerCreate mgr name ev2 ss2 = (0, mgr)) ∧
      (containsName mgr name = false →
        (managerCreate mgr name ev1 ss1).1 = 1 ∧
        managerCreate (managerCreate mgr name ev1 ss1).2 name ev2 ss2 =
          (0, (managerCreate mgr name ev1 ss1).2)) := by
  intro mgr name ev1 ev2 ss1 ss2
  constructor
  · intro h
    simp [managerCreate, h]
  · intro h
    have h1 : managerCreate mgr name ev1 ss1 =
        (1, { mgr with keyspaces :=
          mgr.keyspaces ++ [(name, Db.new ev1 mgr.server_max_memory ss1)] }) := by
      simp [managerCreate, h]
    refine ⟨by rw [h1], ?_⟩
    rw [h1]
    simp [managerCreate, containsName]

/-- Witness for C7 on a fresh manager. -/
theorem C7_witness :
    (managerCreate { server_max_memory := 10, keyspaces := [] } "foo" Evictor.Lru 3).1 = 1 ∧
    managerCreate (managerCreate { server_max_memory := 10, keyspaces := [] }
        "foo" Evictor.Lru 3).2 "foo" Evictor.Random 5 =
      (0, (managerCreate { server_max_memory := 10, keyspaces := [] } "foo" Evictor.Lru 3).2) :=
  (C7_create_idempotent { server_max_memory := 10, keyspaces := [] }
    "foo" Evictor.Lru Evictor.Random 3 5).2 rfl

theorem lruFold_spec :
    ∀ (l : List (String × Value)) (cand : Option String) (t : Nat),
      (lruFold (cand, t) l = (cand, t) ∧ ∀ e ∈ l, t < e.2.last_accessed) ∨
      (∃ l₁ k v l₂, l = l₁ ++ (k, v) :: l₂ ∧ v.last_accessed ≤ t ∧
        lruFold (cand, t) l = (some k, v.last_accessed) ∧
        (∀ e ∈ l₁, v.last_accessed ≤ e.2.last_accessed) ∧
        (∀ e ∈ l₂, v.last_accessed < e.2.last_accessed)) := by
  intro l
  induction l with
  | nil => intro cand t; left; exact ⟨rfl, by simp⟩
  | cons hd tl ih =>
    intro cand t
    obtain ⟨k, v⟩ := hd
    by_cases hle : v.last_accessed ≤ t
    · have hfold : lruFold (cand, t) ((k, v) :: tl) = lruFold (some k, v.last_accessed) tl := by
        simp [lruFold, hle]
      rcases ih (some k) v.last_accessed with ⟨heq, hall⟩ | ⟨l₁, k', v', l₂, hsplit, hle', heq, h₁, h₂⟩
      · right
        exact ⟨[], k, v, tl, by simp, hle, by rw [hfold, heq], by simp, hall⟩
      · right
        refine ⟨(k, v) :: l₁, k', v', l₂, by simp [hsplit], le_trans hle' hle,
          by rw [hfold, heq], ?_, h₂⟩
        intro e he
        rcases List.mem_cons.mp he with he | he
        · subst he; exact hle'
        · exact h₁ e he
    · have hfold : lruFold (cand, t) ((k, v) :: tl) = lruFold (cand, t) tl := by
        simp [lruFold, hle]
      rcases ih cand t with ⟨heq, hall⟩ | ⟨l₁, k', v', l₂, hsplit, hle', heq, h₁, h₂⟩
      · left
        refine ⟨by rw [hfold, heq], ?_⟩
        intro e he
        rcases List.mem_cons.mp he with he | he
        · subst he
          show t < v.last_accessed
          omega
        · exact hall e he
      · right
        refine ⟨(k, v) :: l₁, k', v', l₂, by simp [hsplit], hle',
          by rw [hfold, heq], ?_, h₂⟩
        intro e he
        rcases List.mem_cons.mp he with he | he
        · subst he
          show v'.last_accessed ≤ v.last_accessed
          omega
        · exact h₁ e he

theorem evictLoop_eq_lruFold (ev : Evictor) (hev : ¬ ev = Evictor.Random) (coins : Nat → Bool) :
    ∀ (l : List (String × Value)) (samples stop : Nat) (cand : Option String) (t : Nat),
      samples < stop → stop ≤ samples + l.length →
      evictLoop ev stop coins l samples cand t =
        (lruFold (cand, t) (l.take (stop - samples))).1 := by
  intro l
  induction l with
  | nil =>
    intro samples stop cand t h1 h2
    simp only [List.length_nil] at h2
    omega
  | cons hd tl ih =>
    intro samples stop cand t h1 h2
    obtain ⟨k, v⟩ := hd
    simp only [List.length_cons] at h2
    by_cases hstop : samples + 1 = stop
    · have htake : stop - samples = 1 := by omega
      rw [htake]
      by_cases hle : v.last_accessed ≤ t
      · simp [evictLoop, hev, hstop, lruFold, hle]
      · simp [evictLoop, hev, hstop, lruFold, hle]
    · have h1' : samples + 1 < stop := by omega
      have h2' : stop ≤ samples + 1 + tl.length := by omega
      have htake : stop - samples = (stop - (samples + 1)) + 1 := by omega
      rw [htake, List.take_succ_cons]
      by_cases hle : v.last_accessed ≤ t
      · have e1 : evictLoop ev stop coins ((k, v) :: tl) samples cand t =
            evictLoop ev stop coins tl (samples + 1) (some k) v.last_accessed := by
          simp [evictLoop, hev, hle, hstop]
        have e2 : lruFold (cand, t) ((k, v) :: tl.take (stop - (samples + 1))) =
            lruFold (some k, v.last_accessed) (tl.take (stop - (samples + 1))) := by
          simp [lruFold, hle]
        rw [e1, e2]
        exact ih (samples + 1) stop (some k) v.last_accessed h1' h2'
      · have e1 : evictLoop ev stop coins ((k, v) :: tl) samples cand t =
            evictLoop ev stop coins tl (samples + 1) cand t := by
          simp [evictLoop, hev, hle, hstop]
        have e2 : lruFold (cand, t) ((k, v) :: tl.take (stop - (samples + 1))) =
            lruFold (cand, t) (tl.take (stop - (samples + 1))) := by
          simp [lruFold, hle]
        rw [e1, e2]
        exact ih (samples + 1) stop cand t h1' h2'

/-- C4: in a single LRU sample-and-evict pass over a non-empty store with
sample size at least 1, RSS at or above the cap and shutdown unset,
exactly one entry is removed: the later-most entry of the first
`S = min(sample_size, store_size)` entries in iteration order whose
`last_accessed` is minimal among them (every earlier sampled entry is at
least as recent and every later sampled entry strictly more recent),
given that all timestamps precede the pass's current instant with which
the tracked minimum is initialized. -/
theorem C4_lru_pass :
    ∀ (db : Db) (rss : Nat) (coins : Nat → Bool) (now : Nat),
      db.evictor = Evictor.Lru → db.shutdown = false →
      db.server_max_memory ≤ rss → db.store ≠ [] →
      1 ≤ db.max_memory_sample_size →
      (∀ e ∈ db.store, e.2.last_accessed ≤ now) →
      ∃ l₁ k v l₂,
        db.store.take (min db.max_memory_sample_size db.store.length) =
          l₁ ++ (k, v) :: l₂ ∧
        sample_and_evict db rss coins now = storeDel db.store k ∧
        (sample_and_evict db rss coins now).length + 1 = db.store.length ∧
        (∀ e ∈ l₁, v.last_accessed ≤ e.2.last_accessed) ∧
        (∀ e ∈ l₂, v.last_accessed < e.2.last_accessed) := by
  intro db rss coins now hlru hshut hle hne hss hnow
  have hlen : 0 < db.store.length := List.length_pos.mpr hne
  have hS1 : 1 ≤ min db.max_memory_sample_size db.store.length := le_min hss hlen
  have hS2 : min db.max_memory_sample_size db.store.length ≤ 0 + db.store.length := by omega
  have hloop := evictLoop_eq_lruFold Evictor.Lru (by simp) coins db.store 0
    (min db.max_memory_sample_size db.store.length) none now hS1 hS2
  rcases lruFold_spec (db.store.take (min db.max_memory_sample_size db.store.length))
      none now with ⟨_, hall⟩ | ⟨l₁, k, v, l₂, hsplit, _, hfold, h₁, h₂⟩
  · exfalso
    obtain ⟨hd, tl, hstore⟩ := List.exists_cons_of_ne_nil hne
    obtain ⟨m, hm⟩ : ∃ m, min db.max_memory_sample_size db.store.length = m + 1 :=
      ⟨min db.max_memory_sample_size db.store.length - 1, by omega⟩
    have hmem : hd ∈ db.store.take (min db.max_memory_sample_size db.store.length) := by
      rw [hm, hstore, List.take_succ_cons]
      exact List.mem_cons_self _ _
    have ha := hnow hd (List.take_subset _ _ hmem)
    have hb := hall hd hmem
    omega
  · have hcand : evictLoop db.evictor (min db.max_memory_sample_size db.store.length)
        coins db.store 0 none now = some k := by
      rw [hlru, hloop, Nat.sub_zero, hfold]
    have hresult : sample_and_evict db rss coins now = storeDel db.store k := by
      unfold sample_and_evict
      rw [if_neg (by simp [hshut]), if_neg (by omega), hcand]
    have hmemk : (k, v) ∈ db.store :=
      List.take_subset _ _ (hsplit ▸ List.mem_append_right l₁ (List.mem_cons_self _ _))
    have hlength : (storeDel db.store k).length = db.store.length - 1 :=
      List.length_eraseP_of_mem hmemk (by simp)
    exact ⟨l₁, k, v, l₂, hsplit, hresult, by rw [hresult]; omega, h₁, h₂⟩

/-- Witness for C4: a two-entry LRU store where the second entry is the
least recently accessed. -/
theorem C4_witness :
    ∃ l₁ k v l₂,
      ({ store := [("a", { data := [], last_accessed := 5 }),
                   ("b", { data := [], last_accessed := 3 })], shutdown := false,
         evictor := Evictor.Lru, server_max_memory := 10,
         max_memory_sample_size := 3 } : Db).store.take
        (min ({ store := [("a", { data := [], last_accessed := 5 }),
                          ("b", { data := [], last_accessed := 3 })], shutdown := false,
                evictor := Evictor.Lru, server_max_memory := 10,
                max_memory_sample_size := 3 } : Db).max_memory_sample_size
             ({ store := [("a", { data := [], last_accessed := 5 }),
                          ("b", { data := [], last_accessed := 3 })], shutdown := false,
                evictor := Evictor.Lru, server_max_memory := 10,
                max_memory_sample_size := 3 } : Db).store.length) = l₁ ++ (k, v) :: l₂ ∧
      sample_and_evict
        { store := [("a", { data := [], last_accessed := 5 }),
                    ("b", { data := [], last_accessed := 3 })], shutdown := false,
          evictor := Evictor.Lru, server_max_memory := 10, max_memory_sample_size := 3 }
        10 (fun _ => false) 9 =
        storeDel [("a", { data := [], last_accessed := 5 }),
                  ("b", { data := [], last_accessed := 3 })] k ∧
      (sample_and_evict
        { store := [("a", { data := [], last_accessed := 5 }),
                    ("b", { data := [], last_accessed := 3 })], shutdown := false,
          evictor := Evictor.Lru, server_max_memory := 10, max_memory_sample_size := 3 }
        10 (fun _ => false) 9).length + 1 =
        ({ store := [("a", { data := [], last_accessed := 5 }),
                     ("b", { data := [], last_accessed := 3 })], shutdown := false,
           evictor := Evictor.Lru, server_max_memory := 10,
           max_memory_sample_size := 3 } : Db).store.length ∧
      (∀ e ∈ l₁, v.last_accessed ≤ e.2.last_accessed) ∧
      (∀ e ∈ l₂, v.last_accessed < e.2.last_accessed) :=
  C4_lru_pass
    { store := [("a", { data := [], last_accessed := 5 }),
                ("b", { data := [], last_accessed := 3 })], shutdown := false,
      evictor := Evictor.Lru, server_max_memory := 10, max_memory_sample_size := 3 }
    10 (fun _ => false) 9 rfl rfl (by decide) (by decide) (by decide) (by decide)

theorem collectTokens_strings_ok :
    ∀ (ts acc : List String), acc.length + ts.length ≤ 5 →
      collectTokens (ts.map Frame.string) acc = Except.ok (acc ++ ts) := by
  intro ts
  induction ts with
  | nil => intro acc _; simp [collectTokens]
  | cons t rest ih =>
    intro acc h
    simp only [List.length_cons] at h
    have hlen : ¬ 4 < acc.length := by omega
    simp only [List.map_cons, collectTokens, if_neg hlen, frameToString]
    rw [ih (acc ++ [t]) (by simp; omega)]
    simp

theorem collectTokens_strings_err :
    ∀ (ts acc : List String), 5 < acc.length + ts.length → acc.length ≤ 5 →
      collectTokens (ts.map Frame.string) acc =
        Except.error "ERRPARSE Invalid command, wrong number of arguments for 'CREATE'" := by
  intro ts
  induction ts with
  | nil =>
    intro acc h1 h2
    simp only [List.length_nil] at h1
    omega
  | cons t rest ih =>
    intro acc h1 h2
    simp only [List.length_cons] at h1
    by_cases hlen : 4 < acc.length
    · simp [collectTokens, hlen]
    · simp only [List.map_cons, collectTokens, if_neg hlen, frameToString]
      exact ih (acc ++ [t]) (by simp; omega) (by simp; omega)

/-- C5: a successful `Create::parse` whose option pairs leave the
effective evictor at Noop with a sample size supplied fails with the
`ERRPARSE` sample-size error, and a successful parse with a non-Noop
evictor and no `SS` option yields the default sample size 3.
`tokens` ranges over the well-formed option-pair shapes (2 or 4 string
tokens after the keyspace name). -/
theorem C5_sample_size_rules :
    ∀ (ks : String) (tokens : List String) (cmd1 : CreateCmd),
      (tokens.length = 2 ∨ tokens.length = 4) →
      applyOpts { keyspace := ks, evictor := Evictor.Noop, max_memory_sample_size := none }
          tokens = Except.ok cmd1 →
      (cmd1.evictor = Evictor.Noop ∧ cmd1.max_memory_sample_size.isSome →
        create_parse (Frame.string ks :: tokens.map Frame.string) =
          Except.error
            "ERRPARSE Invalid command, 'SAMPLE SIZE' not applicable for 'NOOP' evictor") ∧
      (cmd1.evictor ≠ Evictor.Noop ∧ cmd1.max_memory_sample_size = none →
        create_parse (Frame.string ks :: tokens.map Frame.string) =
          Except.ok { cmd1 with max_memory_sample_size := some 3 }) := by
  intro ks tokens cmd1 hlen happly
  have hne : ¬ tokens = [] := by
    rcases hlen with h | h <;> (intro hc; subst hc; simp at h)
  have hpar : ¬ tokens.length % 2 ≠ 0 := by
    rcases hlen with h | h <;> simp [h]
  have hcollect : collectTokens (tokens.map Frame.string) [] = Except.ok tokens := by
    have := collectTokens_strings_ok tokens [] (by rcases hlen with h | h <;> simp [h])
    simpa using this
  have hmain : create_parse (Frame.string ks :: tokens.map Frame.string) =
      (if cmd1.evictor = Evictor.Noop ∧ cmd1.max_memory_sample_size.isSome then
        Except.error "ERRPARSE Invalid command, 'SAMPLE SIZE' not applicable for 'NOOP' evictor"
      else if cmd1.evictor ≠ Evictor.Noop ∧ cmd1.max_memory_sample_size = none then
        Except.ok { cmd1 with max_memory_sample_size := some MAX_MEMORY_SAMPLE_SIZE }
      else Except.ok cmd1) := by
    simp only [create_parse, frameToString, hcollect, if_neg hne, if_neg hpar, happly]
  rw [hmain]
  constructor
  · intro hno
    rw [if_pos hno]
  · intro hyes
    rw [if_neg (by tauto), if_pos hyes]
    rfl

/-- Witness for C5: `CREATE foo EV LRU` (no `SS`) parses with the default
sample size 3. -/
theorem C5_witness :
    create_parse [Frame.string "foo", Frame.string "ev", Frame.string "lru"] =
      Except.ok { keyspace := "foo", evictor := Evictor.Lru, max_memory_sample_size := some 3 } :=
  (C5_sample_size_rules "foo" ["ev", "lru"]
    { keyspace := "foo", evictor := Evictor.Lru, max_memory_sample_size := none }
    (Or.inl rfl) rfl).2 ⟨by decide, rfl⟩

/-- C6: a CREATE frame carrying 5 or more string tokens after the
keyspace name fails to parse with the `ERRPARSE` arity error, and
handling such a frame writes that error in-band and leaves the manager —
hence every keyspace — unchanged. -/
theorem C6_create_too_many_tokens :
    ∀ (mgr : KeyspaceManager) (now : Nat) (ks : String) (tokens : List String),
      5 ≤ tokens.length →
      create_parse (Frame.string ks :: tokens.map Frame.string) =
        Except.error "ERRPARSE Invalid command, wrong number of arguments for 'CREATE'" ∧
      handleFrame mgr
          (Frame.array (Frame.string "CREATE" :: Frame.string ks :: tokens.map Frame.string))
          now =
        (Frame.error "ERRPARSE Invalid command, wrong number of arguments for 'CREATE'",
         mgr) := by
  intro mgr now ks tokens h
  have hparse : create_parse (Frame.string ks :: tokens.map Frame.string) =
      Except.error "ERRPARSE Invalid command, wrong number of arguments for 'CREATE'" := by
    rcases Nat.eq_or_lt_of_le h with h5 | h6
    · have hcollect := collectTokens_strings_ok tokens [] (by simp; omega)
      have hne : ¬ tokens = [] := by intro hc; subst hc; simp at h
      have hpar : tokens.length % 2 ≠ 0 := by omega
      simp only [List.nil_append] at hcollect
      simp [create_parse, frameToString, hcollect, hne, hpar]
    · have hcollect := collectTokens_strings_err tokens [] (by simpa using h6) (by simp)
      simp [create_parse, frameToString, hcollect]
  refine ⟨hparse, ?_⟩
  have hcmd : cmdNew
      (Frame.array (Frame.string "CREATE" :: Frame.string ks :: tokens.map Frame.string)) =
      Except.error "ERRPARSE Invalid command, wrong number of arguments for 'CREATE'" := by
    simp only [cmdNew, frameToString]
    rw [show asciiUpper "CREATE" = "CREATE" from rfl]
    rw [if_neg (by decide : ¬ ("CREATE" : String) = "SET"),
      if_neg (by decide : ¬ ("CREATE" : String) = "GET"),
      if_neg (by decide : ¬ ("CREATE" : String) = "DEL"),
      if_pos rfl, hparse]
    rfl
  simp only [handleFrame, hcmd]

/-- Witness for C6: five extra tokens after the keyspace name. -/
theorem C6_witness :
    handleFrame { server_max_memory := 1024, keyspaces := [] }
        (Frame.array [Frame.string "CREATE", Frame.string "foo", Frame.string "a",
          Frame.string "b", Frame.string "c", Frame.string "d", Frame.string "e"]) 0 =
      (Frame.error "ERRPARSE Invalid command, wrong number of arguments for 'CREATE'",
       { server_max_memory := 1024, keyspaces := [] }) :=
  (C6_create_too_many_tokens { server_max_memory := 1024, keyspaces := [] } 0 "foo"
    ["a", "b", "c", "d", "e"] (by decide)).2

theorem map_fst_storeRefresh (s : List (String × Value)) (k : String) (now : Nat) :
    (storeRefresh s k now).map Prod.fst = s.map Prod.fst := by
  induction s with
  | nil => rfl
  | cons hd tl ih =>
    by_cases h : hd.1 = k <;> simp [storeRefresh, h] <;>
      simpa [storeRefresh] using ih

theorem map_fst_replaceEntry (s : List (String × Value)) (k : String) (v : Value) :
    (s.map (fun e => if e.1 = k then (k, v) else e)).map Prod.fst = s.map Prod.fst := by
  induction s with
  | nil => rfl
  | cons hd tl ih =>
    by_cases hh : hd.1 = k <;> simp [hh, ih]

theorem map_fst_storeSet (s : List (String × Value)) (k : String) (v : Value) :
    (storeSet s k v).map Prod.fst =
      (if containsKey s k then s.map Prod.fst else s.map Prod.fst ++ [k]) := by
  by_cases h : containsKey s k
  · rw [if_pos h]
    unfold storeSet
    rw [if_pos h]
    exact map_fst_replaceEntry s k v
  · rw [if_neg h]
    unfold storeSet
    rw [if_neg h]
    simp

theorem map_fst_storeDel (s : List (String × Value)) (k : String) :
    (storeDel s k).map Prod.fst = (s.map Prod.fst).erase k := by
  induction s with
  | nil => rfl
  | cons hd tl ih =>
    unfold storeDel at ih ⊢
    rw [List.eraseP_cons, List.map_cons, List.erase_cons]
    by_cases h : (hd.1 == k) = true
    · rw [h]
      simp [h]
    · rw [Bool.not_eq_true] at h
      rw [h]
      simp only [cond_false, List.map_cons]
      rw [if_neg (by simp [h])]
      rw [ih]

/-- C8: for a keyspace whose evictor is Noop no background evictor task
is started, so no eviction pass is a possible step; the key set of its
store changes only as SET and DEL dictate (GET leaves it unchanged). -/
theorem C8_noop_no_eviction :
    ∀ (db : Db) (e : KeyspaceEvent) (db' : Db),
      db.evictor = Evictor.Noop → keyspaceStep db e = some db' →
      start_evictor db = false ∧
      (∀ rss coins t, e = KeyspaceEvent.evictPass rss coins t → False) ∧
      (∀ k t, e = KeyspaceEvent.getE k t → keysOf db' = keysOf db) ∧
      (∀ k v t, e = KeyspaceEvent.setE k v t →
        keysOf db' = (if containsKey db.store k then keysOf db else keysOf db ++ [k])) ∧
      (∀ k, e = KeyspaceEvent.delE k → keysOf db' = (keysOf db).erase k) := by
  intro db e db' hev hstep
  have hstart : start_evictor db = false := by simp [start_evictor, hev]
  refine ⟨hstart, ?_, ?_, ?_, ?_⟩
  · intro rss coins t he
    subst he
    simp [keyspaceStep, hstart] at hstep
  · intro k t he
    subst he
    simp only [keyspaceStep, keyspace_get, Option.some.injEq] at hstep
    rcases hget : storeGet db.store k with _ | v
    · rw [hget] at hstep
      subst hstep
      rfl
    · rw [hget] at hstep
      subst hstep
      exact map_fst_storeRefresh db.store k t
  · intro k v t he
    subst he
    simp only [keyspaceStep, keyspace_set, Option.some.injEq] at hstep
    subst hstep
    exact map_fst_storeSet db.store k { data := v, last_accessed := t }
  · intro k he
    subst he
    simp only [keyspaceStep, keyspace_del, Option.some.injEq] at hstep
    subst hstep
    exact map_fst_storeDel db.store k

/-- Witness for C8: a DEL step on a one-entry Noop keyspace. -/
theorem C8_witness :
    keysOf
        { store := [], shutdown := false, evictor := Evictor.Noop,
          server_max_memory := 100, max_memory_sample_size := 0 } =
      (keysOf
        { store := [("a", { data := [], last_accessed := 0 })], shutdown := false,
          evictor := Evictor.Noop, server_max_memory := 100,
          max_memory_sample_size := 0 }).erase "a" :=
  (C8_noop_no_eviction
    { store := [("a", { data := [], last_accessed := 0 })], shutdown := false,
      evictor := Evictor.Noop, server_max_memory := 100, max_memory_sample_size := 0 }
    (KeyspaceEvent.delE "a")
    { store := [], shutdown := false, evictor := Evictor.Noop,
      server_max_memory := 100, max_memory_sample_size := 0 }
    rfl rfl).2.2.2.2 "a" rfl

theorem write_isSome_of_not_array (f : Frame) (h : isArrayFrame f = false) :
    (write f).isSome := by
  cases f
  case array => exact absurd h (by simp [isArrayFrame])
  all_goals simp [write]

theorem writeChildren_isSome :
    ∀ (l : List Frame), (∀ f ∈ l, (write f).isSome) → (writeChildren l).isSome := by
  intro l
  induction l with
  | nil => intro _; simp [writeChildren]
  | cons hd tl ih =>
    intro h
    obtain ⟨w, hw⟩ := Option.isSome_iff_exists.mp (h hd (List.mem_cons_self _ _))
    obtain ⟨ws, hws⟩ := Option.isSome_iff_exists.mp
      (ih (fun f hf => h f (List.mem_cons_of_mem _ hf)))
    simp [writeChildren, hw, hws]

theorem parseManyAux_no_array :
    ∀ (p : Cursor → Except ParseError Frame × Cursor) (n : Nat) (c : Cursor)
      (acc values : List Frame) (c2 : Cursor),
      (∀ f ∈ acc, isArrayFrame f = false) →
      parseManyAux p n c acc = (Except.ok values, c2) →
      ∀ f ∈ values, isArrayFrame f = false := by
  intro p n
  induction n with
  | zero =>
    intro c acc values c2 hacc h
    simp only [parseManyAux] at h
    have hv : acc.reverse = values := by
      have := congrArg Prod.fst h
      simpa using this
    subst hv
    intro f hf
    exact hacc f (List.mem_reverse.mp hf)
  | succ n ih =>
    intro c acc values c2 hacc h
    simp only [parseManyAux] at h
    rcases hp : p c with ⟨res, c'⟩
    rw [hp] at h
    rcases res with e | f
    · exact absurd (congrArg Prod.fst h) (by simp)
    · dsimp only at h
      by_cases hf : isArrayFrame f
      · rw [if_pos hf] at h
        exact absurd (congrArg Prod.fst h) (by simp)
      · rw [if_neg hf] at h
        refine ih c' (f :: acc) values c2 ?_ h
        intro g hg
        rcases List.mem_cons.mp hg with hg | hg
        · subst hg
          simpa using hf
        · exact hacc g hg

theorem parseBody_no_nested :
    ∀ (p : Cursor → Except ParseError Frame × Cursor) (c c2 : Cursor) (fr : Frame),
      parseBody p c = (Except.ok fr, c2) → hasNestedArray fr = false := by
  intro p c c2 fr h
  unfold parseBody at h
  repeat' split at h
  all_goals try exact Except.noConfusion (congrArg Prod.fst h)
  all_goals
    (have hfr := Except.ok.inj (congrArg Prod.fst h)
     subst hfr)
  any_goals rfl
  rename_i values cm hmany
  simp only [hasNestedArray]
  refine List.any_eq_false.mpr (fun x hx => ?_)
  have hall := parseManyAux_no_array p _ _ [] _ _ (by simp) hmany
  simp [hall x hx]

/-- C9: the serializer is total on every frame without a nested array —
and every frame the parser can produce is of that shape — but
`write_frame` on an array that itself contains an array reaches the
`unreachable!()` branch of `write` and panics (modelled as `none`). -/
theorem C9_serializer_totality :
    ∀ (f : Frame) (fuel : Nat) (c c2 : Cursor) (fr : Frame),
      (hasNestedArray f = false → (write_frame f).isSome) ∧
      (parseF fuel c = (Except.ok fr, c2) → hasNestedArray fr = false) ∧
      write_frame (Frame.array [Frame.array []]) = none := by
  intro f fuel c c2 fr
  refine ⟨?_, ?_, rfl⟩
  · intro h
    cases f with
    | array values =>
      simp only [hasNestedArray] at h
      have hall : ∀ v ∈ values, (write v).isSome := by
        intro v hv
        refine write_isSome_of_not_array v ?_
        have := List.any_eq_false.mp h v hv
        simpa using this
      have := writeChildren_isSome values hall
      obtain ⟨ws, hws⟩ := Option.isSome_iff_exists.mp this
      simp [write_frame, hws]
    | string data => simp [write_frame, write]
    | blob data => simp [write_frame, write]
    | integer n => simp [write_frame, write]
    | null => simp [write_frame, write]
    | error data => simp [write_frame, write]
  · intro h
    cases fuel with
    | zero => exact absurd (congrArg Prod.fst h) (by simp [parseF])
    | succ n => exact parseBody_no_nested (parseF n) c c2 fr h

/-- Witness for C9: a parse of `#1\r\n$ok\r\n` yields a nested-array-free
frame, and the serializer accepts a plain string frame. -/
theorem C9_witness :
    hasNestedArray (Frame.array [Frame.string "ok"]) = false ∧
    (write_frame (Frame.string "ok")).isSome := by
  refine ⟨?_, ?_⟩
  · exact (C9_serializer_totality Frame.null 7
      { data := [35, 49, 13, 10, 36, 111, 107, 13, 10], pos := 0 }
      { data := [35, 49, 13, 10, 36, 111, 107, 13, 10], pos := 9 }
      (Frame.array [Frame.string "ok"])).2.1 rfl
  · exact (C9_serializer_totality (Frame.string "ok") 0
      { data := [], pos := 0 } { data := [], pos := 0 } Frame.null).1 rfl

theorem char_toNat_ofNat_lt (n : Nat) (h : n < 55296) : (Char.ofNat n).toNat = n := by
  rw [Char.ofNat, dif_pos (show n.isValidChar from Or.inl h)]
  rfl

theorem upChar_idem (c : Char) : upChar (upChar c) = upChar c := by
  by_cases h : (97 ≤ c.toNat && c.toNat ≤ 122) = true
  · have h' : upChar c = Char.ofNat (c.toNat - 32) := by rw [upChar, if_pos h]
    simp only [Bool.and_eq_true, decide_eq_true_eq] at h
    have htn : (Char.ofNat (c.toNat - 32)).toNat = c.toNat - 32 :=
      char_toNat_ofNat_lt _ (by omega)
    rw [h', upChar, if_neg (by simp [htn]; omega)]
  · have h' : upChar c = c := by rw [upChar, if_neg h]
    rw [h', h']

theorem asciiUpper_idem (s : String) : asciiUpper (asciiUpper s) = asciiUpper s := by
  unfold asciiUpper
  apply congrArg String.mk
  show (String.mk (s.data.map upChar)).data.map upChar = s.data.map upChar
  rw [show (String.mk (s.data.map upChar)).data = s.data.map upChar from rfl, List.map_map]
  exact List.map_congr_left (fun c _ => upChar_idem c)

theorem applyOpts_upper :
    ∀ (n : Nat) (cmd : CreateCmd) (tokens : List String), tokens.length ≤ n →
      applyOpts cmd tokens = applyOpts cmd (tokens.map asciiUpper) := by
  intro n
  induction n with
  | zero =>
    intro cmd tokens h
    have hnil : tokens = [] := List.length_eq_zero.mp (Nat.le_zero.mp h)
    subst hnil
    rfl
  | succ n ih =>
    intro cmd tokens h
    match tokens with
    | [] => rfl
    | [x] => rfl
    | arg :: val :: rest =>
      have hlen : rest.length ≤ n := by
        simp only [List.length_cons] at h
        omega
      simp only [List.map_cons, applyOpts, asciiUpper_idem]
      split_ifs
      all_goals try rfl
      all_goals try exact ih _ rest hlen
      rcases hp : parseUsize (asciiUpper val) with _ | v
      · simp only [hp]
      · simp only [hp]
        exact ih _ rest hlen

theorem find?_eq_none_of_any_eq_false (l : List (String × Db)) (nm : String)
    (hl : l.any (fun e => e.1 = nm) = false) :
    l.find? (fun e => e.1 = nm) = none :=
  List.find?_eq_none.mpr (fun x hx => by simpa using List.any_eq_false.mp hl x hx)

/-- C10: command names and CREATE option names are matched
case-insensitively (behaviour depends on the token only through its
upper-casing), but keyspace names are exact: two names differing only in
letter case create two distinct keyspaces, each CREATE returning 1, and
lookup resolves a keyspace only by exact name match. -/
theorem C10_case_sensitivity :
    ∀ (c1 c2 : String) (rest : List Frame) (cmd : CreateCmd) (tokens1 tokens2 : List String)
      (n1 n2 : String) (mgr : KeyspaceManager) (ev : Evictor) (ss : Nat),
      (asciiUpper c1 = asciiUpper c2 →
        cmdNew (Frame.array (Frame.string c1 :: rest)) =
          cmdNew (Frame.array (Frame.string c2 :: rest))) ∧
      (tokens1.map asciiUpper = tokens2.map asciiUpper →
        applyOpts cmd tokens1 = applyOpts cmd tokens2) ∧
      (asciiUpper n1 = asciiUpper n2 → n1 ≠ n2 →
        containsName mgr n1 = false → containsName mgr n2 = false →
        (managerCreate mgr n1 ev ss).1 = 1 ∧
        (managerCreate (managerCreate mgr n1 ev ss).2 n2 ev ss).1 = 1 ∧
        (managerCreate (managerCreate mgr n1 ev ss).2 n2 ev ss).2.keyspaces.length =
          mgr.keyspaces.length + 2 ∧
        lookupKeyspace (managerCreate mgr n1 ev ss).2 n2 = none ∧
        (lookupKeyspace (managerCreate (managerCreate mgr n1 ev ss).2 n2 ev ss).2 n1).isSome ∧
        (lookupKeyspace (managerCreate (managerCreate mgr n1 ev ss).2 n2 ev ss).2 n2).isSome) := by
  intro c1 c2 rest cmd tokens1 tokens2 n1 n2 mgr ev ss
  refine ⟨?_, ?_, ?_⟩
  · intro h
    simp only [cmdNew, frameToString]
    rw [h]
  · intro h
    rw [applyOpts_upper tokens1.length cmd tokens1 le_rfl, h,
      ← applyOpts_upper tokens2.length cmd tokens2 le_rfl]
  · intro hup hne hc1 hc2
    have h1 : managerCreate mgr n1 ev ss =
        (1, { server_max_memory := mgr.server_max_memory, keyspaces :=
          mgr.keyspaces ++ [(n1, Db.new ev mgr.server_max_memory ss)] }) := by
      simp [managerCreate, hc1]
    have hc2' : containsName
        { server_max_memory := mgr.server_max_memory, keyspaces :=
          mgr.keyspaces ++ [(n1, Db.new ev mgr.server_max_memory ss)] } n2 = false := by
      simp only [containsName, List.any_append, Bool.or_eq_false_iff]
      exact ⟨by simpa [containsName] using hc2, by simp [hne]⟩
    have h2 : managerCreate
        { server_max_memory := mgr.server_max_memory, keyspaces :=
          mgr.keyspaces ++ [(n1, Db.new ev mgr.server_max_memory ss)] } n2 ev ss =
        (1, { server_max_memory := mgr.server_max_memory, keyspaces :=
          (mgr.keyspaces ++ [(n1, Db.new ev mgr.server_max_memory ss)]) ++
            [(n2, Db.new ev mgr.server_max_memory ss)] }) := by
      simp [managerCreate, hc2']
    rw [h1]
    dsimp only
    rw [h2]
    dsimp only
    refine ⟨rfl, rfl, by simp, ?_, ?_, ?_⟩
    · simp only [lookupKeyspace, List.find?_append]
      rw [find?_eq_none_of_any_eq_false _ _ (by simpa [containsName] using hc2),
        find?_eq_none_of_any_eq_false _ _ (by simp [hne])]
      rfl
    · simp only [lookupKeyspace, List.find?_append]
      rw [find?_eq_none_of_any_eq_false _ _ (by simpa [containsName] using hc1)]
      simp [List.find?]
    · simp only [lookupKeyspace, List.find?_append]
      rw [find?_eq_none_of_any_eq_false _ _ (by simpa [containsName] using hc2),
        find?_eq_none_of_any_eq_false _ _ (by simp [hne])]
      simp [List.find?]

/-- Witness for C10: `get`/`GET` dispatch identically; `ev lru` and
`EV LRU` parse identically; `foo` and `FOO` are distinct keyspaces. -/
theorem C10_witness :
    cmdNew (Frame.array [Frame.string "get"]) = cmdNew (Frame.array [Frame.string "GET"]) ∧
    applyOpts { keyspace := "x", evictor := Evictor.Noop, max_memory_sample_size := none }
        ["ev", "lru"] =
      applyOpts { keyspace := "x", evictor := Evictor.Noop, max_memory_sample_size := none }
        ["EV", "LRU"] ∧
    (managerCreate { server_max_memory := 0, keyspaces := [] } "foo" Evictor.Noop 0).1 = 1 ∧
    lookupKeyspace
      (managerCreate { server_max_memory := 0, keyspaces := [] } "foo" Evictor.Noop 0).2
      "FOO" = none := by
  have h := C10_case_sensitivity "get" "GET" [] 
    { keyspace := "x", evictor := Evictor.Noop, max_memory_sample_size := none }
    ["ev", "lru"] ["EV", "LRU"] "foo" "FOO" { server_max_memory := 0, keyspaces := [] }
    Evictor.Noop 0
  obtain ⟨ha, hb, hc⟩ := h
  have hd := hc rfl (by decide) rfl rfl
  exact ⟨ha rfl, hb rfl, hd.1, hd.2.2.2.1⟩
